import Mathlib

/-!
Shallow embedding of the pkpass-to-pdf core: the archive normalizer
(`src/pkpass.ts`), the layout engine (`src/pdf.ts`) and the data model
(`src/types.ts`).  Page coordinates and font sizes are modelled as `ℚ`;
a JS `NaN` component produced by `parseInt` on an empty string is
modelled as `none`.  External collaborators (font metrics, PNG decoding,
`Intl` formatting, `Date` parsing, JSON decoding, the ZIP codec) are
parameters: they are collected in the `Env` structure or passed as
function arguments, never reimplemented.
-/

/-- Truthiness test for an optional JS string: `undefined` and `""` are falsy. -/
def strTruthy : Option String → Bool
  | none => false
  | some s => s != ""

/-! ## Page constants (src/pdf.ts lines 9-13) -/

def PAGE_WIDTH : ℚ := 400
def PAGE_HEIGHT : ℚ := 700
def MARGIN : ℚ := 30
def CONTENT_WIDTH : ℚ := PAGE_WIDTH - 2 * MARGIN
def INITIAL_Y : ℚ := PAGE_HEIGHT - MARGIN

/-- A pdf-lib RGB colour.  Each component is `some q` for the JS number `q`,
or `none` for `NaN` (which `parseInt` yields on an empty substring). -/
structure Color where
  r : Option ℚ
  g : Option ℚ
  b : Option ℚ
deriving DecidableEq

/-- Default background fill, `rgb(0.95, 0.95, 0.95)` (src/pdf.ts line 16). -/
def DEFAULT_BG_COLOR : Color := ⟨some (95/100), some (95/100), some (95/100)⟩

/-- Default foreground colour, `rgb(0.1, 0.1, 0.1)` (src/pdf.ts line 17). -/
def DEFAULT_FG_COLOR : Color := ⟨some (1/10), some (1/10), some (1/10)⟩

/-- Default label colour, `rgb(0.4, 0.4, 0.4)` (src/pdf.ts line 18). -/
def DEFAULT_LABEL_COLOR : Color := ⟨some (4/10), some (4/10), some (4/10)⟩

/-! ## Colour grammar (src/pdf.ts `parseColor`)

The two regular expressions of `parseColor` are hand-compiled:
`/rgb\s*\(\s*(\d+)\s*,\s*(\d+)\s*,\s*(\d+)\s*\)/i` is an unanchored,
case-insensitive search (`String.prototype.match`), and
`/^#?([0-9a-f]{3,6})$/i` is anchored.  Since the character classes
`\d`, `\s`, `,`, `(`, `)` are pairwise disjoint, a deterministic
scanner matches the regex backtracking semantics exactly. -/

/-- The `\s` class of the rgb regex (ASCII whitespace). -/
def isJsSpace (c : Char) : Bool := c.isWhitespace

def skipWs (l : List Char) : List Char := l.dropWhile isJsSpace

def digitVal (c : Char) : ℕ := c.toNat - 48

/-- Read a nonempty run of decimal digits (`(\d+)` capture), returning its
value (JS `parseInt(., 10)`) and the rest of the input. -/
def readDigits (l : List Char) : Option (ℕ × List Char) :=
  let ds := l.takeWhile Char.isDigit
  if ds.isEmpty then none
  else some (ds.foldl (fun a c => a * 10 + digitVal c) 0, l.dropWhile Char.isDigit)

/-- Match `\s*\(\s*(\d+)\s*,\s*(\d+)\s*,\s*(\d+)\s*\)` (what follows the
literal `rgb`). -/
def rgbArgsAt (l : List Char) : Option (ℕ × ℕ × ℕ) :=
  match skipWs l with
  | '(' :: r1 =>
    match readDigits (skipWs r1) with
    | some (n1, r2) =>
      match skipWs r2 with
      | ',' :: r3 =>
        match readDigits (skipWs r3) with
        | some (n2, r4) =>
          match skipWs r4 with
          | ',' :: r5 =>
            match readDigits (skipWs r5) with
            | some (n3, r6) =>
              match skipWs r6 with
              | ')' :: _ => some (n1, n2, n3)
              | _ => none
            | none => none
          | _ => none
        | none => none
      | _ => none
    | none => none
  | _ => none

/-- Match the whole rgb pattern at the head of the input
(case-insensitive `rgb` literal, then the parenthesised arguments). -/
def rgbMatchAt : List Char → Option (ℕ × ℕ × ℕ)
  | c1 :: c2 :: c3 :: rest =>
    if c1.toLower = 'r' && c2.toLower = 'g' && c3.toLower = 'b' then rgbArgsAt rest
    else none
  | _ => none

/-- Unanchored search: try the rgb pattern at every start position, leftmost
first (JS `String.prototype.match` semantics). -/
def findRgbGo : List Char → Option (ℕ × ℕ × ℕ)
  | [] => none
  | c :: t =>
    match rgbMatchAt (c :: t) with
    | some m => some m
    | none => findRgbGo t

def findRgb (s : String) : Option (ℕ × ℕ × ℕ) := findRgbGo s.data

/-- The `[0-9a-f]` class with the `i` flag. -/
def hexDigit? (c : Char) : Bool :=
  c.isDigit || ('a' ≤ c && c ≤ 'f') || ('A' ≤ c && c ≤ 'F')

def hexVal (c : Char) : ℕ :=
  if c.isDigit then c.toNat - 48
  else if 'a' ≤ c && c ≤ 'f' then c.toNat - 87
  else c.toNat - 55

/-- JS `parseInt(s, 16)`: value of the maximal hex-digit run, `none` (`NaN`)
when it is empty. -/
def jsParseIntHex (l : List Char) : Option ℕ :=
  let ds := l.takeWhile hexDigit?
  if ds.isEmpty then none
  else some (ds.foldl (fun a c => a * 16 + hexVal c) 0)

/-- Anchored match of `^#?([0-9a-f]{3,6})$/i`, returning the captured digit
run.  Note the quantifier is `{3,6}`: runs of length 4 and 5 match too. -/
def hexRun (s : String) : Option (List Char) :=
  let t := match s.data with
    | '#' :: r => r
    | r => r
  if t.all hexDigit? && 3 ≤ t.length && t.length ≤ 6 then some t else none

/-- The hex branch of `parseColor`: expand a 3-digit triplet, then read the
three components with `substring(0,2)/(2,4)/(4,6)` and `parseInt(., 16)`. -/
def hexColor (t : List Char) : Color :=
  let h := if t.length = 3 then
      match t with
      | [a, b, c] => [a, a, b, b, c, c]
      | _ => t
    else t
  let comp : ℕ → Option ℚ := fun i =>
    (jsParseIntHex ((h.drop i).take 2)).map (fun n => (n : ℚ) / 255)
  ⟨comp 0, comp 2, comp 4⟩

/-- `parseColor` (src/pdf.ts lines 23-49): absent or empty string falls back;
otherwise the unanchored rgb search, then the anchored hex match, then the
fallback. -/
def parseColor (colorStr : Option String) (fallback : Color) : Color :=
  match colorStr with
  | none => fallback
  | some s =>
    if s = "" then fallback
    else
      match findRgb s with
      | some (r, g, b) => ⟨some ((r : ℚ) / 255), some ((g : ℚ) / 255), some ((b : ℚ) / 255)⟩
      | none =>
        match hexRun s with
        | some t => hexColor t
        | none => fallback

/-! ## Data model (src/types.ts) -/

/-- A field value is a JSON string or number. -/
inductive FieldValue where
  | str (s : String)
  | num (n : ℚ)
deriving DecidableEq

/-- `PassField` (src/types.ts lines 162-173). -/
structure PassField where
  key : String
  label : Option String := none
  value : FieldValue
  changeMessage : Option String := none
  textAlignment : Option String := none
  dateStyle : Option String := none
  timeStyle : Option String := none
  isRelative : Option Bool := none
  currencyCode : Option String := none
  numberStyle : Option String := none
deriving DecidableEq

/-- `PassBarcode` (src/types.ts lines 183-188).  `format` is carried as a
raw string, as it arrives from JSON. -/
structure PassBarcode where
  message : String
  format : String
  messageEncoding : Option String := none
  altText : Option String := none
deriving DecidableEq

/-- The five pass styles (src/types.ts lines 191-196). -/
inductive PassStyle where
  | boardingPass
  | coupon
  | eventTicket
  | generic
  | storeCard
deriving DecidableEq

/-- `PassStyleContent` (src/types.ts lines 256-262), with the
`transitType` extension that `boardingPass` carries. -/
structure PassStyleContent where
  headerFields : Option (List PassField) := none
  primaryFields : Option (List PassField) := none
  secondaryFields : Option (List PassField) := none
  auxiliaryFields : Option (List PassField) := none
  backFields : Option (List PassField) := none
  transitType : Option String := none
deriving DecidableEq

/-- `PassJson` (src/types.ts lines 207-253), restricted to the members the
core reads (web-service, app and location members are never consulted). -/
structure PassJson where
  formatVersion : ℚ := 1
  passTypeIdentifier : String := ""
  serialNumber : String
  teamIdentifier : String := ""
  organizationName : String
  description : String
  logoText : Option String := none
  foregroundColor : Option String := none
  backgroundColor : Option String := none
  labelColor : Option String := none
  relevantDate : Option String := none
  expirationDate : Option String := none
  voided : Option Bool := none
  barcode : Option PassBarcode := none
  barcodes : Option (List PassBarcode) := none
  boardingPass : Option PassStyleContent := none
  coupon : Option PassStyleContent := none
  eventTicket : Option PassStyleContent := none
  generic : Option PassStyleContent := none
  storeCard : Option PassStyleContent := none
deriving DecidableEq

/-- Image payloads are opaque byte buffers; they are carried as surrogate
identifiers, never inspected by the core. -/
def Payload := ℕ
deriving DecidableEq

/-- `PassImages` (src/types.ts lines 265-272). -/
structure PassImages where
  logo : Option Payload := none
  icon : Option Payload := none
  strip : Option Payload := none
  background : Option Payload := none
  thumbnail : Option Payload := none
  footer : Option Payload := none
deriving DecidableEq

/-- `ParsedPass` (src/types.ts lines 275-315). -/
structure ParsedPass where
  raw : PassJson
  style : PassStyle
  organizationName : String
  description : String
  logoText : Option String := none
  headerFields : List PassField := []
  primaryFields : List PassField := []
  secondaryFields : List PassField := []
  auxiliaryFields : List PassField := []
  backFields : List PassField := []
  barcode : Option PassBarcode := none
  images : PassImages := {}
  foregroundColor : Option String := none
  backgroundColor : Option String := none
  labelColor : Option String := none
  transitType : Option String := none
  relevantDate : Option String := none
  expirationDate : Option String := none
deriving DecidableEq

/-! ## Archive normalizer (src/pkpass.ts) -/

/-- A ZIP entry, readable as text (`async "string"`) or as bytes
(`async "nodebuffer"`). -/
structure Entry where
  text : String := ""
  bytes : Payload := (0 : ℕ)
deriving DecidableEq

/-- The loaded archive: lookup of an entry by exact file name
(JSZip's `zip.file(name)`). -/
def Zip := String → Option Entry

/-- `PASS_STYLES` (src/pkpass.ts lines 14-20): the fixed priority order. -/
def PASS_STYLES : List PassStyle :=
  [.boardingPass, .coupon, .eventTicket, .generic, .storeCard]

/-- Projection, `passJson[style]`. -/
def styleContent (p : PassJson) : PassStyle → Option PassStyleContent
  | .boardingPass => p.boardingPass
  | .coupon => p.coupon
  | .eventTicket => p.eventTicket
  | .generic => p.generic
  | .storeCard => p.storeCard

/-- The loop body of `detectPassStyle` (src/pkpass.ts lines 104-111). -/
def detectStyleGo (p : PassJson) : List PassStyle → PassStyle
  | [] => .generic
  | s :: rest => if (styleContent p s).isSome then s else detectStyleGo p rest

/-- `detectPassStyle`: first style of `PASS_STYLES` present on the manifest
root, defaulting to `generic`. -/
def detectPassStyle (p : PassJson) : PassStyle := detectStyleGo p PASS_STYLES

/-- `getStyleContent` (src/pkpass.ts lines 116-121). -/
def getStyleContent (p : PassJson) (style : PassStyle) : Option PassStyleContent :=
  styleContent p style

/-- The three candidate file names of one image role, in descending
resolution order (src/pkpass.ts line 133). -/
def imageVariants (k : String) : List String :=
  [k ++ "@3x.png", k ++ "@2x.png", k ++ ".png"]

/-- The inner loop of `extractImages`: first variant present in the archive. -/
def firstImage (zip : Zip) : List String → Option Payload
  | [] => none
  | v :: rest =>
    match zip v with
    | some e => some e.bytes
    | none => firstImage zip rest

/-- `extractImages` (src/pkpass.ts lines 126-146). -/
def extractImages (zip : Zip) : PassImages :=
  { logo := firstImage zip (imageVariants ("logo"))
    icon := firstImage zip (imageVariants ("icon"))
    strip := firstImage zip (imageVariants ("strip"))
    background := firstImage zip (imageVariants ("background"))
    thumbnail := firstImage zip (imageVariants ("thumbnail"))
    footer := firstImage zip (imageVariants ("footer")) }

/-- The two fatal errors of `parsePkpass`. -/
inductive ParseErr where
  | missingManifest
  | malformedManifest
deriving DecidableEq

/-- The exact error messages thrown (src/pkpass.ts lines 55 and 63). -/
def ParseErr.message : ParseErr → String
  | .missingManifest => "Invalid .pkpass file: pass.json not found"
  | .malformedManifest => "Invalid .pkpass file: pass.json is not valid JSON"

/-- Construction of the canonical `ParsedPass` from the decoded manifest and
the extracted images (src/pkpass.ts lines 66-98). -/
def buildParsedPass (passJson : PassJson) (images : PassImages) : ParsedPass :=
  let style := detectPassStyle passJson
  let sc := getStyleContent passJson style
  let barcode :=
    match passJson.barcodes.bind List.head? with
    | some b => some b
    | none => passJson.barcode
  { raw := passJson
    style := style
    organizationName := passJson.organizationName
    description := passJson.description
    logoText := passJson.logoText
    headerFields := (sc.bind (·.headerFields)).getD []
    primaryFields := (sc.bind (·.primaryFields)).getD []
    secondaryFields := (sc.bind (·.secondaryFields)).getD []
    auxiliaryFields := (sc.bind (·.auxiliaryFields)).getD []
    backFields := (sc.bind (·.backFields)).getD []
    barcode := barcode
    images := images
    foregroundColor := passJson.foregroundColor
    backgroundColor := passJson.backgroundColor
    labelColor := passJson.labelColor
    transitType :=
      if style = .boardingPass then passJson.boardingPass.bind (·.transitType)
      else none
    relevantDate := passJson.relevantDate
    expirationDate := passJson.expirationDate }

/-- `parsePkpass` (src/pkpass.ts lines 48-99).  `decode` is the external
JSON codec (`JSON.parse` succeeding or throwing). -/
def parsePkpass (zip : Zip) (decode : String → Option PassJson) :
    Except ParseErr ParsedPass :=
  match zip ("pass.json") with
  | none => .error .missingManifest
  | some entry =>
    match decode entry.text with
    | none => .error .malformedManifest
    | some passJson => .ok (buildParsedPass passJson (extractImages zip))

/-! ## External capabilities of the layout engine -/

/-- Dimensions of a successfully embedded PNG (pdf-lib reports positive
pixel dimensions for any PNG it accepts). -/
structure PngInfo where
  width : ℚ
  height : ℚ
  width_pos : 0 < width
  height_pos : 0 < height

/-- Style buckets of `Intl.DateTimeFormatOptions`. -/
inductive DTStyle where
  | short
  | medium
  | long
  | full
deriving DecidableEq

/-- The options object built by `formatFieldValue`. -/
structure DTOpts where
  dateStyle : Option DTStyle := none
  timeStyle : Option DTStyle := none
deriving DecidableEq

/-- The external collaborators of `generatePdf`: font metrics
(`font.widthOfTextAtSize`), the PNG embedder (`embedPng`, `none` when it
throws), `Intl` number/currency/date formatting, JS number printing, and
`new Date(.)` parsing (`none` when the time value is `NaN`). -/
structure Env where
  widthOf : String → ℚ → ℚ
  embedPng : Payload → Option PngInfo
  formatCurrency : String → ℚ → String
  numToString : ℚ → String
  parseDate : String → Option ℚ
  formatDateTime : DTOpts → ℚ → String
  formatDateMedium : ℚ → String

/-- Map a `PKDateStyle*` string to its `Intl` bucket; unknown strings leave
the option unset (the if/else-if chains of src/pdf.ts lines 92-100). -/
def dtStyleOf : String → Option DTStyle
  | "PKDateStyleShort" => some .short
  | "PKDateStyleMedium" => some .medium
  | "PKDateStyleLong" => some .long
  | "PKDateStyleFull" => some .full
  | _ => none

/-- `formatFieldValue` (src/pdf.ts lines 73-110). -/
def formatFieldValue (env : Env) (f : PassField) : String :=
  match f.value with
  | .num n =>
    if strTruthy f.currencyCode then env.formatCurrency (f.currencyCode.getD "") n
    else env.numToString n
  | .str s =>
    if strTruthy f.dateStyle then
      match env.parseDate s with
      | some d =>
        env.formatDateTime
          ⟨(f.dateStyle.getD "") |> dtStyleOf, (f.timeStyle.getD "") |> dtStyleOf⟩ d
      | none => s
    else s

/-! ## Word wrap (src/pdf.ts `wrapText`, lines 571-590) -/

/-- JS `text.split(/\s+/)`: tokens between maximal whitespace runs; a
leading or trailing run contributes an empty token. -/
def splitWsAux : List Char → List Char → List String
  | [], cur => [String.mk cur.reverse]
  | c :: rest, cur =>
    if isJsSpace c then
      String.mk cur.reverse :: splitWsAux (rest.dropWhile isJsSpace) []
    else
      splitWsAux rest (c :: cur)
termination_by l _ => l.length
decreasing_by
  · simp only [List.length_cons]
    exact Nat.lt_succ_of_le (List.dropWhile_sublist _).length_le
  · simp

def jsSplitWs (s : String) : List String := splitWsAux s.data []

/-- The greedy fill loop of `wrapText`. -/
def wrapGo (env : Env) (fontSize maxWidth : ℚ) : List String → String → List String
  | [], cur => if cur ≠ "" then [cur] else []
  | w :: ws, cur =>
    let testLine := if cur = "" then w else cur ++ " " ++ w
    if env.widthOf testLine fontSize ≤ maxWidth then wrapGo env fontSize maxWidth ws testLine
    else if cur ≠ "" then cur :: wrapGo env fontSize maxWidth ws w
    else wrapGo env fontSize maxWidth ws w

/-- `wrapText`: split on whitespace, then greedily fill lines that keep
`widthOfTextAtSize` within `maxWidth`. -/
def wrapText (env : Env) (text : String) (fontSize maxWidth : ℚ) : List String :=
  wrapGo env fontSize maxWidth (jsSplitWs text) ""

/-! ## Draw operations

The document sink records one operation per pdf-lib draw call, in call
order; a document is the list of pages, each page its operation list. -/

inductive Op where
  | rect (x y w h : ℚ) (color : Color)
  | text (s : String) (x y size : ℚ) (bold : Bool) (color : Color) (maxWidth : Option ℚ)
  | image (payload : Payload) (x y w h : ℚ)
  | qrImage (message : String) (x y w h : ℚ)
  | line (x1 y1 x2 y2 thickness : ℚ) (color : Color)
deriving DecidableEq

/-- The x-coordinate of a draw operation. -/
def Op.xPos : Op → ℚ
  | .rect x _ _ _ _ => x
  | .text _ x _ _ _ _ _ => x
  | .image _ x _ _ _ => x
  | .qrImage _ x _ _ _ => x
  | .line x _ _ _ _ _ => x

/-- Whether an operation is the generated matrix-barcode image. -/
def Op.isQr : Op → Bool
  | .qrImage _ _ _ _ _ => true
  | _ => false

/-- `drawSeparator` (src/pdf.ts lines 171-178). -/
def sepOp (y : ℚ) (color : Color) : Op :=
  .line MARGIN y (PAGE_WIDTH - MARGIN) y (1/2) color

/-- The full-page background rectangle. -/
def bgRect (bg : Color) : Op := .rect 0 0 PAGE_WIDTH PAGE_HEIGHT bg

/-! ## Field grid (src/pdf.ts `drawFieldSection`, lines 115-166) -/

structure SectionOpts where
  columns : ℕ
  labelSize : ℚ
  valueSize : ℚ

/-- The draw calls of one field: optional label, then value. -/
structure FieldDraw where
  labelOp : Option Op
  valueOp : Op
deriving DecidableEq

def fieldDrawOps (fd : FieldDraw) : List Op := fd.labelOp.toList ++ [fd.valueOp]

/-- `labelValueGap` of a field (src/pdf.ts line 149). -/
def fieldGap (o : SectionOpts) (f : PassField) : ℚ :=
  if strTruthy f.label then o.labelSize + 6 else 0

/-- The loop of `drawFieldSection`: `i` is the absolute field index (for
`i % columns`), `y` the shared row cursor, advanced only when the last
column of a row is filled or the sequence ends. -/
def fieldSectionAux (env : Env) (fg lb : Color) (o : SectionOpts) :
    List PassField → ℕ → ℚ → List FieldDraw × ℚ
  | [], _, y => ([], y)
  | f :: rest, i, y =>
    let col := i % o.columns
    let columnWidth := CONTENT_WIDTH / (o.columns : ℚ)
    let x := MARGIN + (col : ℚ) * columnWidth
    let labelOp : Option Op :=
      if strTruthy f.label then
        some (.text (f.label.getD "").toUpper x y o.labelSize false lb none)
      else none
    let gap := fieldGap o f
    let valueOp : Op :=
      .text (formatFieldValue env f) x (y - gap) o.valueSize true fg
        (some (columnWidth - 10))
    let y2 := if col = o.columns - 1 ∨ rest = [] then y - (gap + o.valueSize + 12) else y
    let r := fieldSectionAux env fg lb o rest (i + 1) y2
    (⟨labelOp, valueOp⟩ :: r.1, r.2)

/-- The per-field draw records of `drawFieldSection`. -/
def drawFieldSectionDraws (env : Env) (fg lb : Color) (o : SectionOpts)
    (fields : List PassField) (y : ℚ) : List FieldDraw :=
  (fieldSectionAux env fg lb o fields 0 y).1

/-- `drawFieldSection`: flattened draw operations and the final cursor. -/
def drawFieldSection (env : Env) (fg lb : Color) (fields : List PassField)
    (y : ℚ) (o : SectionOpts) : List Op × ℚ :=
  if fields = [] then ([], y)
  else
    let r := fieldSectionAux env fg lb o fields 0 y
    ((r.1.map fieldDrawOps).flatten, r.2)

/-! ## Page steps of `generatePdf` (src/pdf.ts lines 183-538) -/

/-- Everything `generatePdf` reads from a `ParsedPass`.  The `icon`,
`background` and `footer` images are not among its members: the layout
engine never consults them. -/
structure RenderInput where
  style : PassStyle
  organizationName : String
  description : String
  logoText : Option String := none
  headerFields : List PassField := []
  primaryFields : List PassField := []
  secondaryFields : List PassField := []
  auxiliaryFields : List PassField := []
  backFields : List PassField := []
  barcode : Option PassBarcode := none
  logo : Option Payload := none
  thumbnail : Option Payload := none
  strip : Option Payload := none
  foregroundColor : Option String := none
  backgroundColor : Option String := none
  labelColor : Option String := none
  transitType : Option String := none
  relevantDate : Option String := none
  serialNumber : String := ""

def toRenderInput (p : ParsedPass) : RenderInput :=
  { style := p.style
    organizationName := p.organizationName
    description := p.description
    logoText := p.logoText
    headerFields := p.headerFields
    primaryFields := p.primaryFields
    secondaryFields := p.secondaryFields
    auxiliaryFields := p.auxiliaryFields
    backFields := p.backFields
    barcode := p.barcode
    logo := p.images.logo
    thumbnail := p.images.thumbnail
    strip := p.images.strip
    foregroundColor := p.foregroundColor
    backgroundColor := p.backgroundColor
    labelColor := p.labelColor
    transitType := p.transitType
    relevantDate := p.relevantDate
    serialNumber := p.raw.serialNumber }

/-- The two text-only fallbacks of the header row: logo text alone, or the
organization name (src/pdf.ts lines 241-259). -/
def headerTextFallback (fg : Color) (rin : RenderInput) (y : ℚ) : List Op :=
  if strTruthy rin.logoText then
    [Op.text (rin.logoText.getD "") MARGIN (y - 20) 14 true fg none]
  else
    [Op.text rin.organizationName MARGIN (y - 20) 14 true fg none]

/-- The logo part of the header row (src/pdf.ts lines 210-259): the
embedded logo scaled to height 30 with optional logo text to its right,
falling back to text when the logo is absent or unembeddable. -/
def headerLogoOps (env : Env) (fg : Color) (rin : RenderInput) (y : ℚ) : List Op :=
  match rin.logo with
  | some pl =>
    match env.embedPng pl with
    | some info =>
      let logoHeight : ℚ := 30
      let logoScale := logoHeight / info.height
      let logoWidth := info.width * logoScale
      [Op.image pl MARGIN (y - logoHeight) logoWidth logoHeight] ++
        (if strTruthy rin.logoText then
          [Op.text (rin.logoText.getD "") (MARGIN + logoWidth + 10) (y - 20) 14 true fg none]
        else [])
    | none => headerTextFallback fg rin y
  | none => headerTextFallback fg rin y

/-- The right-aligned thumbnail of the header row
(src/pdf.ts lines 261-278), skipped when absent or unembeddable. -/
def headerThumbOps (env : Env) (rin : RenderInput) (y : ℚ) : List Op :=
  match rin.thumbnail with
  | some pl =>
    match env.embedPng pl with
    | some info =>
      let thumbnailHeight : ℚ := 50
      let thumbnailScale := thumbnailHeight / info.height
      let thumbnailWidth := info.width * thumbnailScale
      [Op.image pl (PAGE_WIDTH - MARGIN - thumbnailWidth) (y - thumbnailHeight)
        thumbnailWidth thumbnailHeight]
    | none => []
  | none => []

/-- Header row (src/pdf.ts lines 207-280): logo ops, thumbnail ops, then
`y -= 50`. -/
def headerStep (env : Env) (fg : Color) (rin : RenderInput) (y : ℚ) :
    List Op × ℚ :=
  (headerLogoOps env fg rin y ++ headerThumbOps env rin y, y - 50)

/-- Strip image (src/pdf.ts lines 292-309): scaled to content width, height
capped at 120; skipped when absent or unembeddable. -/
def stripStep (env : Env) (strip : Option Payload) (y : ℚ) : List Op × ℚ :=
  match strip with
  | some pl =>
    match env.embedPng pl with
    | some info =>
      let stripWidth := CONTENT_WIDTH
      let stripScale := stripWidth / info.width
      let stripHeight := min (info.height * stripScale) 120
      ([Op.image pl MARGIN (y - stripHeight) stripWidth stripHeight],
        y - (stripHeight + 15))
    | none => ([], y)
  | none => ([], y)

/-- `formatPassStyle` (src/pdf.ts lines 543-566). -/
def styleDisplay : PassStyle → String
  | .boardingPass => "Boarding Pass"
  | .coupon => "Coupon"
  | .eventTicket => "Event Ticket"
  | .generic => "Pass"
  | .storeCard => "Store Card"

def transitDisplay : String → Option String
  | "PKTransitTypeAir" => some ("Flight")
  | "PKTransitTypeBoat" => some ("Ferry")
  | "PKTransitTypeBus" => some ("Bus")
  | "PKTransitTypeGeneric" => some ("Transit")
  | "PKTransitTypeTrain" => some ("Train")
  | _ => none

def formatPassStyle (style : PassStyle) (transitType : Option String) : String :=
  let label := styleDisplay style
  if strTruthy transitType then (transitDisplay (transitType.getD "")).getD label
  else label

/-- Description, style label and the first separator
(src/pdf.ts lines 311-334): `y -= 30`, `y -= 20`, `y -= 15`. -/
def titleBlock (rin : RenderInput) (fg lb : Color) (y : ℚ) : List Op × ℚ :=
  ([Op.text rin.description MARGIN y 18 true fg (some CONTENT_WIDTH),
    Op.text (formatPassStyle rin.style rin.transitType) MARGIN (y - 30) 9 false lb none,
    sepOp (y - 50) lb],
   y - 65)

/-- Primary fields (src/pdf.ts lines 336-344): up to 2 columns, larger
type, then `y -= 5`. -/
def primaryStep (env : Env) (fg lb : Color) (rin : RenderInput) (y : ℚ) :
    List Op × ℚ :=
  if rin.primaryFields ≠ [] then
    let r := drawFieldSection env fg lb rin.primaryFields y
      ⟨min rin.primaryFields.length 2, 9, 16⟩
    (r.1, r.2 - 5)
  else ([], y)

/-- Secondary fields (src/pdf.ts lines 346-351): up to 3 columns, default
type sizes. -/
def secondaryStep (env : Env) (fg lb : Color) (rin : RenderInput) (y : ℚ) :
    List Op × ℚ :=
  if rin.secondaryFields ≠ [] then
    drawFieldSection env fg lb rin.secondaryFields y
      ⟨min rin.secondaryFields.length 3, 8, 11⟩
  else ([], y)

/-- Auxiliary fields (src/pdf.ts lines 353-360): preceded by a separator
and `y -= 15`, only when non-empty. -/
def auxiliaryStep (env : Env) (fg lb : Color) (rin : RenderInput) (y : ℚ) :
    List Op × ℚ :=
  if rin.auxiliaryFields ≠ [] then
    let r := drawFieldSection env fg lb rin.auxiliaryFields (y - 15)
      ⟨min rin.auxiliaryFields.length 3, 8, 11⟩
    (sepOp y lb :: r.1, r.2)
  else ([], y)

/-- Primary, secondary and auxiliary field sections
(src/pdf.ts lines 336-360). -/
def midFieldsStep (env : Env) (fg lb : Color) (rin : RenderInput) (y : ℚ) :
    List Op × ℚ :=
  let r1 := primaryStep env fg lb rin y
  let r2 := secondaryStep env fg lb rin r1.2
  let r3 := auxiliaryStep env fg lb rin r2.2
  (r1.1 ++ r2.1 ++ r3.1, r3.2)

/-- JS `String.prototype.replace` with a string pattern: replace the first
occurrence only (here the replacement is empty). -/
def stripFirst (s pat : String) : String :=
  match s.splitOn pat with
  | x :: y :: rest => x ++ String.intercalate pat (y :: rest)
  | _ => s

/-- Barcode block (src/pdf.ts lines 362-405): separator, centred QR image,
centred format label with the vendor prefix removed, optional centred alt
text. -/
def barcodeStep (env : Env) (fg lb : Color) (bc : Option PassBarcode) (y : ℚ) :
    List Op × ℚ :=
  match bc with
  | none => ([], y)
  | some b =>
    let qrSize : ℚ := 120
    let qrX := (PAGE_WIDTH - qrSize) / 2
    let formatLabel := stripFirst b.format ("PKBarcodeFormat")
    let baseOps : List Op :=
      [sepOp y lb,
       Op.qrImage b.message qrX (y - 20 - qrSize) qrSize qrSize,
       Op.text formatLabel ((PAGE_WIDTH - env.widthOf formatLabel 8) / 2) (y - 150) 8
         false lb none]
    if strTruthy b.altText then
      (baseOps ++
        [Op.text (b.altText.getD "") ((PAGE_WIDTH - env.widthOf (b.altText.getD "") 10) / 2)
          (y - 162) 10 true fg none],
       y - 177)
    else (baseOps, y - 162)

/-! ## Back fields (src/pdf.ts lines 407-504)

The two placements (new page vs. in place) run the same loop shape with
different constants, collected in `BackCfg`: label size/step/colour, line
size/step, the post-field step, and the optional per-field line cap
(`lines.slice(0, 3)` in the in-place branch only). -/

structure BackCfg where
  labelSize : ℚ
  labelStep : ℚ
  labelColor : Color
  lineSize : ℚ
  lineStep : ℚ
  postStep : ℚ
  cap : Option ℕ
  lineColor : Color

/-- Constants of the new-page branch (src/pdf.ts lines 431-460). -/
def newPageCfg (fg : Color) : BackCfg :=
  { labelSize := 9, labelStep := 12, labelColor := fg
    lineSize := 10, lineStep := 14, postStep := 10, cap := none, lineColor := fg }

/-- Constants of the in-place branch (src/pdf.ts lines 474-502). -/
def inPlaceCfg (fg lb : Color) : BackCfg :=
  { labelSize := 8, labelStep := 11, labelColor := lb
    lineSize := 9, lineStep := 12, postStep := 8, cap := some 3, lineColor := fg }

/-- The wrapped-line loop of one back field: each line is drawn only while
the cursor is at or above the bottom threshold 50. -/
def backLinesLoop (cfg : BackCfg) : List String → ℚ → List Op × ℚ
  | [], y => ([], y)
  | line :: rest, y =>
    if y < 50 then ([], y)
    else
      let r := backLinesLoop cfg rest (y - cfg.lineStep)
      (Op.text line MARGIN y cfg.lineSize false cfg.lineColor none :: r.1, r.2)

/-- The field loop of the back section: a field at a cursor below 50 stops
the loop (remaining fields are omitted); otherwise its optional label, its
(possibly capped) wrapped value lines, then the post-field step. -/
def backFieldsLoop (env : Env) (cfg : BackCfg) : List PassField → ℚ → List Op × ℚ
  | [], y => ([], y)
  | f :: rest, y =>
    if y < 50 then ([], y)
    else
      let labelPart : List Op × ℚ :=
        if strTruthy f.label then
          ([Op.text (f.label.getD "") MARGIN y cfg.labelSize true cfg.labelColor none],
           y - cfg.labelStep)
        else ([], y)
      let lines0 := wrapText env (formatFieldValue env f) cfg.lineSize CONTENT_WIDTH
      let lines := match cfg.cap with
        | some n => lines0.take n
        | none => lines0
      let linesPart := backLinesLoop cfg lines labelPart.2
      let y3 := linesPart.2 - cfg.postStep
      let restPart := backFieldsLoop env cfg rest y3
      (labelPart.1 ++ linesPart.1 ++ restPart.1, restPart.2)

/-- The whole back-field step: on a cursor below 150 a second page is
started (background fill, large title at `INITIAL_Y`, then the uncapped
loop); otherwise separator, small title and the capped loop in place.
Returns the extra first-page operations, the optional second page, and the
final cursor. -/
def backStep (env : Env) (bg fg lb : Color) (backFields : List PassField)
    (y : ℚ) : List Op × Option (List Op) × ℚ :=
  if backFields = [] then ([], none, y)
  else if y < 150 then
    let titleOp := Op.text ("Additional Information") MARGIN INITIAL_Y 14 true fg none
    let r := backFieldsLoop env (newPageCfg fg) backFields (INITIAL_Y - 25)
    ([], some (bgRect bg :: titleOp :: r.1), r.2)
  else
    let titleOp := Op.text ("Additional Information") MARGIN (y - 15) 10 true fg none
    let r := backFieldsLoop env (inPlaceCfg fg lb) backFields (y - 33)
    (sepOp y lb :: titleOp :: r.1, none, r.2)

/-- Footer metadata (src/pdf.ts lines 506-533), drawn on the first page:
serial number left-aligned; when `relevantDate` is truthy, the formatted
date right-aligned.  `Date.prototype.toLocaleDateString` yields the string
`"Invalid Date"` for a `NaN` time value (ECMA-402; it does not throw, so
the surrounding `catch` is unreachable). -/
def footerOps (env : Env) (lb : Color) (serial : String)
    (relevantDate : Option String) : List Op :=
  Op.text ("Serial: " ++ serial) MARGIN 25 7 false lb none ::
    (if strTruthy relevantDate then
      let dateStr :=
        match env.parseDate (relevantDate.getD "") with
        | some d => env.formatDateMedium d
        | none => "Invalid Date"
      [Op.text ("Date: " ++ dateStr) (PAGE_WIDTH - MARGIN - 80) 25 7 false lb none]
    else [])

/-- The first-page content up to and including the barcode block, with the
cursor it leaves (src/pdf.ts lines 191-405). -/
def renderFrontFull (env : Env) (rin : RenderInput) : List Op × ℚ :=
  let bg := parseColor rin.backgroundColor DEFAULT_BG_COLOR
  let fg := parseColor rin.foregroundColor DEFAULT_FG_COLOR
  let lb := parseColor rin.labelColor DEFAULT_LABEL_COLOR
  let h := headerStep env fg rin INITIAL_Y
  let hf :=
    if rin.headerFields ≠ [] then
      drawFieldSection env fg lb rin.headerFields h.2
        ⟨min rin.headerFields.length 3, 7, 10⟩
    else ([], h.2)
  let st := stripStep env rin.strip hf.2
  let tb := titleBlock rin fg lb st.2
  let mf := midFieldsStep env fg lb rin tb.2
  let bc := barcodeStep env fg lb rin.barcode mf.2
  (bgRect bg :: (h.1 ++ hf.1 ++ st.1 ++ tb.1 ++ mf.1 ++ bc.1), bc.2)

/-- The cursor position at the page-break decision for back fields. -/
def frontYCore (env : Env) (rin : RenderInput) : ℚ := (renderFrontFull env rin).2

/-- `generatePdf` on a render input: front content, back-field step,
footer on the first page, optional second page. -/
def generatePdfCore (env : Env) (rin : RenderInput) : List (List Op) :=
  let bg := parseColor rin.backgroundColor DEFAULT_BG_COLOR
  let fg := parseColor rin.foregroundColor DEFAULT_FG_COLOR
  let lb := parseColor rin.labelColor DEFAULT_LABEL_COLOR
  let front := renderFrontFull env rin
  let back := backStep env bg fg lb rin.backFields front.2
  (front.1 ++ back.1 ++ footerOps env lb rin.serialNumber rin.relevantDate) ::
    back.2.1.toList

/-- `generatePdf` (src/pdf.ts lines 183-538), as the document it draws. -/
def generatePdf (p : ParsedPass) (env : Env) : List (List Op) :=
  generatePdfCore env (toRenderInput p)

/-- The cursor value tested against the page-break threshold 150. -/
def frontY (p : ParsedPass) (env : Env) : ℚ := frontYCore env (toRenderInput p)

/-! ## Specification-side helpers -/

/-- Index-aware map, used to state closed forms of drawing loops. -/
def mapWithIndex (f : ℕ → α → β) : List α → List β
  | [] => []
  | a :: l => f 0 a :: mapWithIndex (fun i => f (i + 1)) l

/-- Partition a list into consecutive chunks of size `n` (the rows of a
field grid); the final chunk may be shorter. -/
def chunksOf (n : ℕ) : List α → List (List α)
  | [] => []
  | a :: l => (a :: l.take (n - 1)) :: chunksOf n (l.drop (n - 1))
termination_by l => l.length
decreasing_by
  simp only [List.length_cons]
  exact Nat.lt_succ_of_le (by simp [List.length_drop])

/-- The vertical advance of one grid row: the label gap of the row's last
field, plus the value size, plus the fixed padding 12. -/
def rowAdvance (o : SectionOpts) (row : List PassField) : ℚ :=
  (match row.getLast? with
    | some f => fieldGap o f
    | none => 0) + o.valueSize + 12

/-- Spec-side image selection: the first present variant in descending
resolution order, written as stated in the specification (an `orElse`
chain over the three candidate names). -/
def pickSpec (zip : Zip) (k : String) : Option Payload :=
  (((zip (k ++ "@3x.png")).orElse (fun _ => zip (k ++ "@2x.png"))).orElse
      (fun _ => zip (k ++ ".png"))).map (·.bytes)

/-! ## Shared concrete instances for witnesses and counterexamples -/

/-- A trivial environment: zero-width font, failing PNG embedder, empty
formatters, no parseable dates. -/
def env0 : Env :=
  { widthOf := fun _ _ => 0
    embedPng := fun _ => none
    formatCurrency := fun _ _ => ""
    numToString := fun _ => ""
    parseDate := fun _ => none
    formatDateTime := fun _ _ => ""
    formatDateMedium := fun _ => "" }

/-! ## Claim theorems -/

/-- C5.  `parsePkpass` fails with the missing-manifest error exactly when
the archive has no `pass.json` entry, fails with the distinct
malformed-manifest error exactly when the entry exists but its content does
not decode as JSON, succeeds exactly otherwise (so a failure never produces
a partial `ParsedPass`), and the two error messages are distinct. -/
theorem parse_error_classification :
    ∀ (zip : Zip) (decode : String → Option PassJson),
      (parsePkpass zip decode = .error .missingManifest ↔ zip ("pass.json") = none) ∧
      (parsePkpass zip decode = .error .malformedManifest ↔
        ∃ e, zip ("pass.json") = some e ∧ decode e.text = none) ∧
      ((∃ pp, parsePkpass zip decode = .ok pp) ↔
        ∃ e, zip ("pass.json") = some e ∧ (decode e.text).isSome) ∧
      ParseErr.missingManifest.message ≠ ParseErr.malformedManifest.message := by
  intro zip decode
  refine ⟨?_, ?_, ?_, by decide⟩ <;>
    rcases h : zip ("pass.json") with _ | e <;>
      simp [parsePkpass, h] <;>
      rcases hd : decode e.text with _ | p <;>
        simp [hd]

/-- The style-detection loop agrees with "first style whose sub-object is
present, else `generic`" on any priority list. -/
theorem detectStyleGo_eq (p : PassJson) :
    ∀ l : List PassStyle,
      detectStyleGo p l =
        (l.find? (fun s => (styleContent p s).isSome)).getD .generic := by
  intro l
  induction l with
  | nil => rfl
  | cons s rest ih =>
    by_cases h : (styleContent p s).isSome = true <;>
      simp [detectStyleGo, List.find?, h, ih]

/-- C7.  The detected style is the first of
{boardingPass, coupon, eventTicket, generic, storeCard}, in that fixed
priority order, whose sub-object is present on the manifest root,
defaulting to `generic` when none of the five is present (so multiple
style keys silently yield the first in priority order, not an error). -/
theorem style_detection_priority :
    (∀ p : PassJson,
      detectPassStyle p =
        ((PASS_STYLES.find? (fun s => (styleContent p s).isSome)).getD .generic)) ∧
    (∀ p : PassJson, p.boardingPass.isSome → detectPassStyle p = .boardingPass) ∧
    (∀ p : PassJson, p.boardingPass = none → p.coupon.isSome →
      detectPassStyle p = .coupon) ∧
    (∀ p : PassJson, p.boardingPass = none → p.coupon = none →
      p.eventTicket = none → p.generic = none → p.storeCard = none →
      detectPassStyle p = .generic) := by
  refine ⟨fun p => detectStyleGo_eq p PASS_STYLES, ?_, ?_, ?_⟩
  · intro p h
    simp [detectPassStyle, PASS_STYLES, detectStyleGo, styleContent, h]
  · intro p h1 h2
    simp [detectPassStyle, PASS_STYLES, detectStyleGo, styleContent, h1, h2]
  · intro p h1 h2 h3 h4 h5
    simp [detectPassStyle, PASS_STYLES, detectStyleGo, styleContent, h1, h2, h3, h4, h5]

/-- A manifest with none of the five style sub-objects. -/
def pj0 : PassJson :=
  { serialNumber := "SN-1", organizationName := "Org", description := "Desc" }

/-- Witness for C7: a manifest with zero style keys resolves to `generic`,
and one whose only style key is `coupon` resolves to `coupon`. -/
theorem style_detection_priority_witness :
    detectPassStyle pj0 = .generic ∧
    detectPassStyle { pj0 with coupon := some {} } = .coupon :=
  ⟨style_detection_priority.2.2.2 pj0 rfl rfl rfl rfl rfl,
   style_detection_priority.2.2.1 { pj0 with coupon := some {} } rfl rfl⟩

/-- The variant loop of `extractImages` agrees with the spec-side `orElse`
chain for every role name. -/
theorem firstImage_variants (zip : Zip) (k : String) :
    firstImage zip (imageVariants k) = pickSpec zip k := by
  rcases h3 : zip (k ++ "@3x.png") with _ | e3 <;>
    rcases h2 : zip (k ++ "@2x.png") with _ | e2 <;>
      rcases h1 : zip (k ++ ".png") with _ | e1 <;>
        simp [firstImage, imageVariants, pickSpec, h3, h2, h1, Option.orElse]

/-- C8.  For each of the six image roles the normalizer selects the payload
of the first file found among `{role}@3x.png`, `{role}@2x.png`,
`{role}.png` in that order, and a role with none of the three files present
remains unset. -/
theorem image_resolution_priority :
    ∀ zip : Zip,
      ((extractImages zip).logo = pickSpec zip ("logo")) ∧
      ((extractImages zip).icon = pickSpec zip ("icon")) ∧
      ((extractImages zip).strip = pickSpec zip ("strip")) ∧
      ((extractImages zip).background = pickSpec zip ("background")) ∧
      ((extractImages zip).thumbnail = pickSpec zip ("thumbnail")) ∧
      ((extractImages zip).footer = pickSpec zip ("footer")) ∧
      (∀ k, firstImage zip (imageVariants k) = none ↔
        zip (k ++ "@3x.png") = none ∧ zip (k ++ "@2x.png") = none ∧
        zip (k ++ ".png") = none) := by
  intro zip
  refine ⟨firstImage_variants zip _, firstImage_variants zip _, firstImage_variants zip _,
    firstImage_variants zip _, firstImage_variants zip _, firstImage_variants zip _, ?_⟩
  intro k
  rcases h3 : zip (k ++ "@3x.png") with _ | e3 <;>
    rcases h2 : zip (k ++ "@2x.png") with _ | e2 <;>
      rcases h1 : zip (k ++ ".png") with _ | e1 <;>
        simp [firstImage, imageVariants, h3, h2, h1]

/-- C10.  The icon, background and footer image payloads are extracted by
the normalizer (same selection as every other role), but the layout engine
never reads them: two parsed passes that differ only in those three image
entries render to identical documents. -/
theorem unused_images_do_not_affect_render :
    (∀ zip : Zip,
      (extractImages zip).icon = pickSpec zip ("icon") ∧
      (extractImages zip).background = pickSpec zip ("background") ∧
      (extractImages zip).footer = pickSpec zip ("footer")) ∧
    (∀ (p : ParsedPass) (env : Env) (i1 b1 f1 i2 b2 f2 : Option Payload),
      generatePdf
        { p with images := { p.images with icon := i1, background := b1, footer := f1 } }
        env =
      generatePdf
        { p with images := { p.images with icon := i2, background := b2, footer := f2 } }
        env) := by
  refine ⟨fun zip => ⟨firstImage_variants zip _, firstImage_variants zip _,
    firstImage_variants zip _⟩, ?_⟩
  intro p env i1 b1 f1 i2 b2 f2
  rfl

/-! ## Absence of barcode operations -/

/-- No operation of the list is the generated matrix-barcode image. -/
def noQr (l : List Op) : Prop := ∀ op ∈ l, op.isQr = false

theorem noQr_append {a b : List Op} (ha : noQr a) (hb : noQr b) : noQr (a ++ b) := by
  intro op hop
  rcases List.mem_append.mp hop with h | h
  · exact ha op h
  · exact hb op h

theorem noQr_fieldSectionAux (env : Env) (fg lb : Color) (o : SectionOpts) :
    ∀ (fields : List PassField) (i : ℕ) (y : ℚ),
      noQr (((fieldSectionAux env fg lb o fields i y).1.map fieldDrawOps).flatten) := by
  intro fields
  induction fields with
  | nil => intro i y op hop; simp [fieldSectionAux] at hop
  | cons f rest ih =>
    intro i y op hop
    simp only [fieldSectionAux, List.map_cons, List.flatten_cons] at hop
    rcases List.mem_append.mp hop with h | h
    · simp only [fieldDrawOps, Op.isQr] at h ⊢
      rcases List.mem_append.mp h with h2 | h2
      · rcases hl : strTruthy f.label <;> simp [hl] at h2
        simp [h2, Op.isQr]
      · simp at h2
        simp [h2, Op.isQr]
    · exact ih (i + 1) _ op h

theorem noQr_drawFieldSection (env : Env) (fg lb : Color) (fields : List PassField)
    (y : ℚ) (o : SectionOpts) : noQr (drawFieldSection env fg lb fields y o).1 := by
  unfold drawFieldSection
  split
  · intro op hop; simp at hop
  · exact noQr_fieldSectionAux env fg lb o fields 0 y

theorem noQr_headerTextFallback (fg : Color) (rin : RenderInput) (y : ℚ) :
    noQr (headerTextFallback fg rin y) := by
  intro op hop
  unfold headerTextFallback at hop
  rcases hlt : strTruthy rin.logoText <;> simp [hlt] at hop <;> simp [hop, Op.isQr]

theorem noQr_headerLogoOps (env : Env) (fg : Color) (rin : RenderInput) (y : ℚ) :
    noQr (headerLogoOps env fg rin y) := by
  intro op hop
  rcases hl : rin.logo with _ | pl
  · simp only [headerLogoOps, hl] at hop
    exact noQr_headerTextFallback fg rin y op hop
  · simp only [headerLogoOps, hl] at hop
    rcases he : env.embedPng pl with _ | info
    · simp only [he] at hop
      exact noQr_headerTextFallback fg rin y op hop
    · simp only [he] at hop
      rcases hlt : strTruthy rin.logoText <;> simp [hlt] at hop
      · simp [hop, Op.isQr]
      · rcases hop with h | h <;> simp [h, Op.isQr]

theorem noQr_headerThumbOps (env : Env) (rin : RenderInput) (y : ℚ) :
    noQr (headerThumbOps env rin y) := by
  intro op hop
  rcases ht : rin.thumbnail with _ | pl
  · simp only [headerThumbOps, ht] at hop
    simp at hop
  · simp only [headerThumbOps, ht] at hop
    rcases he : env.embedPng pl with _ | info <;> simp only [he] at hop <;> simp at hop
    simp [hop, Op.isQr]

theorem noQr_headerStep (env : Env) (fg : Color) (rin : RenderInput) (y : ℚ) :
    noQr (headerStep env fg rin y).1 :=
  noQr_append (noQr_headerLogoOps env fg rin y) (noQr_headerThumbOps env rin y)

theorem noQr_stripStep (env : Env) (strip : Option Payload) (y : ℚ) :
    noQr (stripStep env strip y).1 := by
  intro op hop
  rcases hs : strip with _ | pl
  · simp only [stripStep, hs] at hop
    simp at hop
  · simp only [stripStep, hs] at hop
    rcases he : env.embedPng pl with _ | info <;> simp only [he] at hop <;> simp at hop
    simp [hop, Op.isQr]

theorem noQr_titleBlock (rin : RenderInput) (fg lb : Color) (y : ℚ) :
    noQr (titleBlock rin fg lb y).1 := by
  intro op hop
  simp only [titleBlock, List.mem_cons, List.mem_singleton, List.not_mem_nil,
    or_false] at hop
  rcases hop with h | h | h <;> simp [h, sepOp, Op.isQr]

theorem noQr_primaryStep (env : Env) (fg lb : Color) (rin : RenderInput) (y : ℚ) :
    noQr (primaryStep env fg lb rin y).1 := by
  unfold primaryStep
  split
  · exact noQr_drawFieldSection env fg lb _ _ _
  · intro op hop; simp at hop

theorem noQr_secondaryStep (env : Env) (fg lb : Color) (rin : RenderInput) (y : ℚ) :
    noQr (secondaryStep env fg lb rin y).1 := by
  unfold secondaryStep
  split
  · exact noQr_drawFieldSection env fg lb _ _ _
  · intro op hop; simp at hop

theorem noQr_auxiliaryStep (env : Env) (fg lb : Color) (rin : RenderInput) (y : ℚ) :
    noQr (auxiliaryStep env fg lb rin y).1 := by
  unfold auxiliaryStep
  split
  · intro op hop
    rcases List.mem_cons.mp hop with h | h
    · simp [h, sepOp, Op.isQr]
    · exact noQr_drawFieldSection env fg lb _ _ _ op h
  · intro op hop; simp at hop

theorem noQr_midFieldsStep (env : Env) (fg lb : Color) (rin : RenderInput) (y : ℚ) :
    noQr (midFieldsStep env fg lb rin y).1 := by
  unfold midFieldsStep
  exact noQr_append (noQr_append (noQr_primaryStep env fg lb rin y)
    (noQr_secondaryStep env fg lb rin _)) (noQr_auxiliaryStep env fg lb rin _)

theorem noQr_backLinesLoop (cfg : BackCfg) :
    ∀ (ls : List String) (y : ℚ), noQr (backLinesLoop cfg ls y).1 := by
  intro ls
  induction ls with
  | nil => intro y op hop; simp [backLinesLoop] at hop
  | cons line rest ih =>
    intro y op hop
    by_cases hy : y < 50
    · simp [backLinesLoop, hy] at hop
    · simp only [backLinesLoop, if_neg hy] at hop
      rcases List.mem_cons.mp hop with h | h
      · simp [h, Op.isQr]
      · exact ih _ op h

theorem noQr_backFieldsLoop (env : Env) (cfg : BackCfg) :
    ∀ (fields : List PassField) (y : ℚ), noQr (backFieldsLoop env cfg fields y).1 := by
  intro fields
  induction fields with
  | nil => intro y op hop; simp [backFieldsLoop] at hop
  | cons f rest ih =>
    intro y op hop
    by_cases hy : y < 50
    · simp [backFieldsLoop, hy] at hop
    · simp only [backFieldsLoop, if_neg hy] at hop
      rcases List.mem_append.mp hop with h | h
      · rcases List.mem_append.mp h with h2 | h2
        · rcases hl : strTruthy f.label <;> simp [hl] at h2
          simp [h2, Op.isQr]
        · exact noQr_backLinesLoop cfg _ _ op h2
      · exact ih _ op h

theorem noQr_footerOps (env : Env) (lb : Color) (serial : String)
    (relevantDate : Option String) : noQr (footerOps env lb serial relevantDate) := by
  intro op hop
  simp only [footerOps, List.mem_cons] at hop
  rcases hop with h | h
  · simp [h, Op.isQr]
  · rcases hr : strTruthy relevantDate <;> simp [hr] at h
    simp [h, Op.isQr]

/-- The first-page operations of `backStep` never hold a barcode image, and
neither does its optional second page. -/
theorem noQr_backStep (env : Env) (bg fg lb : Color) (backFields : List PassField)
    (y : ℚ) :
    noQr (backStep env bg fg lb backFields y).1 ∧
    ∀ page2, (backStep env bg fg lb backFields y).2.1 = some page2 → noQr page2 := by
  unfold backStep
  by_cases h0 : backFields = []
  · simp only [if_pos h0]
    exact ⟨fun op hop => by simp at hop, fun p2 hp2 => by simp at hp2⟩
  · simp only [if_neg h0]
    by_cases hy : y < 150
    · simp only [if_pos hy]
      refine ⟨fun op hop => by simp at hop, fun p2 hp2 => ?_⟩
      simp only [Option.some.injEq] at hp2
      subst hp2
      intro op hop
      rcases List.mem_cons.mp hop with h | h2
      · simp [h, bgRect, Op.isQr]
      · rcases List.mem_cons.mp h2 with h | h
        · simp [h, Op.isQr]
        · exact noQr_backFieldsLoop env _ _ _ op h
    · simp only [if_neg hy]
      refine ⟨?_, fun p2 hp2 => by simp at hp2⟩
      intro op hop
      rcases List.mem_cons.mp hop with h | h2
      · simp [h, sepOp, Op.isQr]
      · rcases List.mem_cons.mp h2 with h | h
        · simp [h, Op.isQr]
        · exact noQr_backFieldsLoop env _ _ _ op h

/-- A first page rendered for a pass without a barcode holds no barcode
image operation. -/
theorem noQr_renderFrontFull (env : Env) (rin : RenderInput)
    (hbc : rin.barcode = none) : noQr (renderFrontFull env rin).1 := by
  intro op hop
  simp only [renderFrontFull, hbc, barcodeStep] at hop
  rcases List.mem_cons.mp hop with h1 | h1
  · simp [h1, bgRect, Op.isQr]
  · rcases List.mem_append.mp h1 with h2 | h2
    on_goal 2 => simp at h2
    rcases List.mem_append.mp h2 with h3 | h3
    on_goal 2 => exact noQr_midFieldsStep env _ _ rin _ op h3
    rcases List.mem_append.mp h3 with h4 | h4
    on_goal 2 => exact noQr_titleBlock rin _ _ _ op h4
    rcases List.mem_append.mp h4 with h5 | h5
    on_goal 2 => exact noQr_stripStep env _ _ op h5
    rcases List.mem_append.mp h5 with h6 | h6
    · exact noQr_headerStep env _ rin _ op h6
    · split at h6
      · exact noQr_drawFieldSection env _ _ _ _ _ op h6
      · simp at h6

/-- C2.  The canonical barcode is the first element of the modern
`barcodes` array when that array is present and non-empty, otherwise the
legacy single `barcode` field (absent when both are missing); and a pass
without a barcode renders with the whole barcode block omitted — the step
draws nothing and moves no cursor, and no page of the document holds a
matrix-barcode image — without failing. -/
theorem barcode_selection_and_omission :
    (∀ (p : PassJson) (imgs : PassImages) (b : PassBarcode) (bs : List PassBarcode),
      p.barcodes = some (b :: bs) → (buildParsedPass p imgs).barcode = some b) ∧
    (∀ (p : PassJson) (imgs : PassImages),
      p.barcodes = none ∨ p.barcodes = some [] →
      (buildParsedPass p imgs).barcode = p.barcode) ∧
    (∀ (env : Env) (fg lb : Color) (y : ℚ), barcodeStep env fg lb none y = ([], y)) ∧
    (∀ (p : ParsedPass) (env : Env), p.barcode = none →
      ∀ page ∈ generatePdf p env, noQr page) := by
  refine ⟨?_, ?_, ?_, ?_⟩
  · intro p imgs b bs h
    simp [buildParsedPass, h]
  · intro p imgs h
    rcases h with h | h <;> simp [buildParsedPass, h]
  · intro env fg lb y
    rfl
  · intro p env hbc page hpage
    have hrin : (toRenderInput p).barcode = none := hbc
    simp only [generatePdf, generatePdfCore] at hpage
    rcases List.mem_cons.mp hpage with h1 | h1
    · subst h1
      refine noQr_append (noQr_append ?_ ?_) ?_
      · exact noQr_renderFrontFull env _ hrin
      · exact (noQr_backStep env _ _ _ _ _).1
      · exact noQr_footerOps env _ _ _
    · simp only [Option.mem_toList, Option.mem_def] at h1
      exact (noQr_backStep env _ _ _ _ _).2 page h1

/-- A QR-format barcode used by the barcode witnesses. -/
def bQR : PassBarcode := { message := "MSG-1", format := "PKBarcodeFormatQR" }

/-- A legacy barcode used by the barcode witnesses. -/
def bLegacy : PassBarcode := { message := "LEG-1", format := "PKBarcodeFormatAztec" }

/-- A concrete barcode-free parsed pass. -/
def pass0 : ParsedPass :=
  { raw := pj0, style := .generic, organizationName := "Org", description := "Desc" }

/-- Witness for C2: a manifest with both a legacy barcode and a non-empty
modern array selects the modern head; one with only the legacy barcode
keeps it; the barcode step of a barcode-free pass is empty; and no page of
a barcode-free render holds a matrix-barcode image. -/
theorem barcode_selection_and_omission_witness :
    (buildParsedPass { pj0 with barcodes := some [bQR], barcode := some bLegacy }
      {}).barcode = some bQR ∧
    (buildParsedPass { pj0 with barcode := some bLegacy } {}).barcode = some bLegacy ∧
    barcodeStep env0 DEFAULT_FG_COLOR DEFAULT_LABEL_COLOR none 0 = ([], 0) ∧
    (∀ page ∈ generatePdf pass0 env0, noQr page) :=
  ⟨barcode_selection_and_omission.1 _ {} bQR [] rfl,
   barcode_selection_and_omission.2.1 _ {} (Or.inl rfl),
   barcode_selection_and_omission.2.2.1 env0 _ _ 0,
   barcode_selection_and_omission.2.2.2 pass0 env0 rfl⟩

/-- Splitting the rgb search at a cons cell. -/
theorem findRgbGo_cons (c : Char) (t : List Char) :
    findRgbGo (c :: t) = none ↔ rgbMatchAt (c :: t) = none ∧ findRgbGo t = none := by
  cases hm : rgbMatchAt (c :: t) <;> simp [findRgbGo, hm]

/-- Completeness of the unanchored search: it fails exactly when the rgb
pattern matches at no start position. -/
theorem findRgbGo_eq_none_iff :
    ∀ l : List Char,
      findRgbGo l = none ↔ ∀ i < l.length + 1, rgbMatchAt (l.drop i) = none := by
  intro l
  induction l with
  | nil =>
    simp only [findRgbGo, List.length_nil, List.drop_nil, true_iff]
    intro i _
    rfl
  | cons c t ih =>
    rw [findRgbGo_cons, ih]
    constructor
    · rintro ⟨h0, hrest⟩ i hi
      cases i with
      | zero => simpa using h0
      | succ n =>
        rw [List.drop_succ_cons]
        exact hrest n (by simp only [List.length_cons] at hi; omega)
    · intro hall
      refine ⟨by simpa using hall 0 (by omega), fun n hn => ?_⟩
      have := hall (n + 1) (by simp only [List.length_cons]; omega)
      simpa [List.drop_succ_cons] using this

/-- C1 counterexample: the string of five hex digits `12345` is neither of
the claimed colour forms — not an `rgb(r, g, b)` string and not a hex
triplet or sextet (its run has length 5, not 3 or 6) — yet `parseColor`
does not return the fallback: the regex quantifier is `{3,6}`, so the
string parses as a colour. -/
theorem parse_color_five_hex_digits_not_fallback :
    parseColor (some ("12345")) DEFAULT_BG_COLOR ≠ DEFAULT_BG_COLOR := by
  have hfind : findRgb ("12345") = none := by decide
  have hhex : hexRun ("12345") = some ['1', '2', '3', '4', '5'] := by decide
  have h18 : jsParseIntHex ['1', '2'] = some 18 := by decide
  have h52 : jsParseIntHex ['3', '4'] = some 52 := by decide
  have h5 : jsParseIntHex ['5'] = some 5 := by decide
  have hpc : parseColor (some ("12345")) DEFAULT_BG_COLOR =
      ⟨some ((18 : ℚ) / 255), some ((52 : ℚ) / 255), some ((5 : ℚ) / 255)⟩ := by
    simp only [parseColor, hfind, hhex, hexColor]
    norm_num [h18, h52, h5]
    exact fun h => absurd h (by decide)
  rw [hpc]
  simp only [DEFAULT_BG_COLOR]
  intro h
  simp only [Color.mk.injEq, Option.some.injEq] at h
  exact absurd h.1 (by norm_num)

/-- C1 (amended).  `parseColor` returns the caller-supplied per-role
fallback exactly for an absent (or empty) colour string and for strings
that neither contain an `rgb(d+, d+, d+)` substring anywhere (decimal
components of any magnitude, not only 0-255) nor consist of 3 **to** 6 hex
digits with an optional leading `#`; the three per-role fallback defaults
are pairwise distinct; and rendering always succeeds, producing at least
one page. -/
theorem parse_color_fallback_amended :
    (∀ fb : Color, parseColor none fb = fb) ∧
    (∀ (s : String) (fb : Color),
      (∀ i < s.data.length + 1, rgbMatchAt (s.data.drop i) = none) →
      hexRun s = none →
      parseColor (some s) fb = fb) ∧
    (DEFAULT_BG_COLOR ≠ DEFAULT_FG_COLOR ∧ DEFAULT_BG_COLOR ≠ DEFAULT_LABEL_COLOR ∧
      DEFAULT_FG_COLOR ≠ DEFAULT_LABEL_COLOR) ∧
    (∀ (p : ParsedPass) (env : Env), 1 ≤ (generatePdf p env).length) := by
  refine ⟨fun fb => rfl, ?_,
    ⟨by norm_num [DEFAULT_BG_COLOR, DEFAULT_FG_COLOR, Color.mk.injEq],
     by norm_num [DEFAULT_BG_COLOR, DEFAULT_LABEL_COLOR, Color.mk.injEq],
     by norm_num [DEFAULT_FG_COLOR, DEFAULT_LABEL_COLOR, Color.mk.injEq]⟩, ?_⟩
  · intro s fb hrgb hhex
    have h1 : findRgb s = none := (findRgbGo_eq_none_iff s.data).mpr hrgb
    by_cases hs : s = ""
    · simp [parseColor, hs]
    · simp [parseColor, hs, findRgb] at h1 ⊢
      simp [h1, hhex]
  · intro p env
    simp only [generatePdf, generatePdfCore, List.length_cons]
    omega

/-- Witness for the amended C1: `not-a-color` (scenario D of the
specification) matches neither pattern, so every role falls back to its
default, and the render of a pass with that background colour still
produces a document. -/
theorem parse_color_fallback_amended_witness :
    parseColor (some ("not-a-color")) DEFAULT_BG_COLOR = DEFAULT_BG_COLOR ∧
    1 ≤ (generatePdf { pass0 with backgroundColor := some ("not-a-color") } env0).length :=
  ⟨parse_color_fallback_amended.2.1 ("not-a-color") DEFAULT_BG_COLOR (by decide) (by decide),
   parse_color_fallback_amended.2.2.2 { pass0 with backgroundColor := some ("not-a-color") }
     env0⟩

/-- A pass whose `relevantDate` does not parse as a date. -/
def pass6 : ParsedPass := { pass0 with relevantDate := some ("not-a-date") }

/-- C6 (code bug).  When the relevant-date string fails to parse
(`new Date(.)` yields a `NaN` time value), the footer does **not** omit the
date: `Date.prototype.toLocaleDateString` returns the string
`"Invalid Date"` instead of throwing, the `catch` meant to skip it is
unreachable, and the operation `Date: Invalid Date` is drawn in the footer
of the (single) first page next to the serial number. -/
theorem invalid_relevant_date_footer_drawn :
    env0.parseDate ("not-a-date") = none ∧
    Op.text ("Date: Invalid Date") (PAGE_WIDTH - MARGIN - 80) 25 7 false
        DEFAULT_LABEL_COLOR none ∈
      (generatePdf pass6 env0).headD [] ∧
    (generatePdf pass6 env0).length = 1 := by
  refine ⟨rfl, ?_, ?_⟩
  · simp only [generatePdf, generatePdfCore, List.headD_cons]
    refine List.mem_append.mpr (Or.inr ?_)
    simp [footerOps, strTruthy, env0, toRenderInput, pass6, pass0, parseColor]
    exact Or.inr (by decide)
  · simp [generatePdf, generatePdfCore, backStep, toRenderInput, pass6, pass0]

/-- Default draw record for indexed access. -/
def fdDefault : FieldDraw := ⟨none, Op.rect 0 0 0 0 ⟨none, none, none⟩⟩

theorem fieldSectionAux_length (env : Env) (fg lb : Color) (o : SectionOpts) :
    ∀ (fields : List PassField) (i : ℕ) (y : ℚ),
      (fieldSectionAux env fg lb o fields i y).1.length = fields.length := by
  intro fields
  induction fields with
  | nil => intro i y; rfl
  | cons f rest ih =>
    intro i y
    simp [fieldSectionAux, ih]

/-- Field `j` of a section started at absolute index `i` is drawn at the
x-position of column `(i + j) % columns`. -/
theorem fieldSectionAux_value_x (env : Env) (fg lb : Color) (o : SectionOpts) :
    ∀ (fields : List PassField) (i : ℕ) (y : ℚ) (j : ℕ), j < fields.length →
      (((fieldSectionAux env fg lb o fields i y).1.getD j fdDefault).valueOp).xPos =
        MARGIN + (((i + j) % o.columns : ℕ) : ℚ) * (CONTENT_WIDTH / (o.columns : ℚ)) := by
  intro fields
  induction fields with
  | nil => intro i y j hj; simp at hj
  | cons f rest ih =>
    intro i y j hj
    cases j with
    | zero =>
      simp [fieldSectionAux, Op.xPos]
    | succ n =>
      simp only [fieldSectionAux, List.getD_cons_succ]
      have hn : n < rest.length := by
        simp only [List.length_cons] at hj
        omega
      rw [ih (i + 1) _ n hn, show i + 1 + n = i + (n + 1) from by omega]

/-- Processing one grid row: the cursor is advanced exactly once, when the
row's last field is reached, by that field's gap plus value size plus the
fixed padding — i.e. by `rowAdvance` of the row. -/
theorem fieldSectionAux_cons_snd (env : Env) (fg lb : Color) (o : SectionOpts)
    (f : PassField) (rest : List PassField) (i : ℕ) (y : ℚ) :
    (fieldSectionAux env fg lb o (f :: rest) i y).2 =
      (fieldSectionAux env fg lb o rest (i + 1)
        (if i % o.columns = o.columns - 1 ∨ rest = [] then
          y - (fieldGap o f + o.valueSize + 12)
        else y)).2 := by
  simp only [fieldSectionAux]

/-- Processing one grid row: the cursor is advanced exactly once, when the
row's last field is reached, by that field's gap plus value size plus the
fixed padding — i.e. by `rowAdvance` of the row. -/
theorem fieldSectionAux_row (env : Env) (fg lb : Color) (o : SectionOpts)
    (hcols : 0 < o.columns) :
    ∀ (row : List PassField) (j m : ℕ) (rest : List PassField) (y : ℚ),
      row ≠ [] → j + row.length ≤ o.columns →
      (rest = [] ∨ j + row.length = o.columns) →
      (fieldSectionAux env fg lb o (row ++ rest) (m * o.columns + j) y).2 =
        (fieldSectionAux env fg lb o rest (m * o.columns + j + row.length)
          (y - rowAdvance o row)).2 := by
  intro row
  induction row with
  | nil => intro j m rest y hne; exact absurd rfl hne
  | cons f row' ih =>
    intro j m rest y _ hlen hrest
    have hj : j < o.columns := by
      simp only [List.length_cons] at hlen
      omega
    have hmod : (m * o.columns + j) % o.columns = j := by
      rw [Nat.add_comm, Nat.add_mul_mod_self_right]
      exact Nat.mod_eq_of_lt hj
    cases row' with
    | nil =>
      have hcond : (m * o.columns + j) % o.columns = o.columns - 1 ∨ rest = [] := by
        rcases hrest with h | h
        · exact Or.inr h
        · refine Or.inl ?_
          rw [hmod]
          simp only [List.length_cons, List.length_nil] at h
          omega
      rw [List.singleton_append, fieldSectionAux_cons_snd, if_pos hcond]
      have hadv : rowAdvance o [f] = fieldGap o f + o.valueSize + 12 := by
        simp [rowAdvance]
      rw [hadv]
      simp
    | cons f2 row'' =>
      have hjlt : j < o.columns - 1 := by
        simp only [List.length_cons] at hlen
        omega
      have hcond : ¬ ((m * o.columns + j) % o.columns = o.columns - 1 ∨
          (f2 :: row'') ++ rest = []) := by
        push_neg
        refine ⟨?_, by simp⟩
        rw [hmod]
        omega
      rw [List.cons_append, fieldSectionAux_cons_snd, if_neg hcond]
      have hlen2 : (j + 1) + (f2 :: row'').length ≤ o.columns := by
        simp only [List.length_cons] at hlen ⊢
        omega
      have hrest2 : rest = [] ∨ (j + 1) + (f2 :: row'').length = o.columns := by
        rcases hrest with h | h
        · exact Or.inl h
        · refine Or.inr ?_
          simp only [List.length_cons] at h ⊢
          omega
      have hih := ih (j + 1) m rest y (by simp) hlen2 hrest2
      have hidx : m * o.columns + j + 1 = m * o.columns + (j + 1) := by omega
      rw [hidx, hih]
      have hadv : rowAdvance o (f :: f2 :: row'') = rowAdvance o (f2 :: row'') := by
        simp [rowAdvance, List.getLast?_cons_cons]
      have hidx2 : m * o.columns + (j + 1) + (f2 :: row'').length =
          m * o.columns + j + (f :: f2 :: row'').length := by
        simp only [List.length_cons]
        omega
      rw [hidx2, hadv]

/-- The final cursor of a field section started on a row boundary: the
start cursor minus the sum over the grid rows of each row's advance. -/
theorem fieldSectionAux_chunks (env : Env) (fg lb : Color) (o : SectionOpts)
    (hcols : 0 < o.columns) :
    ∀ (N : ℕ) (fields : List PassField) (m : ℕ) (y : ℚ), fields.length ≤ N →
      (fieldSectionAux env fg lb o fields (m * o.columns) y).2 =
        y - ((chunksOf o.columns fields).map (rowAdvance o)).sum := by
  intro N
  induction N with
  | zero =>
    intro fields m y hle
    have h0 : fields = [] := List.length_eq_zero.mp (Nat.le_zero.mp hle)
    subst h0
    simp [fieldSectionAux, chunksOf]
  | succ n ih =>
    intro fields m y hle
    cases fields with
    | nil => simp [fieldSectionAux, chunksOf]
    | cons f t =>
      have hrow : f :: t = (f :: t.take (o.columns - 1)) ++ t.drop (o.columns - 1) := by
        rw [List.cons_append, List.take_append_drop]
      have h1 : (f :: t.take (o.columns - 1)) ≠ [] := by simp
      have h2 : 0 + (f :: t.take (o.columns - 1)).length ≤ o.columns := by
        simp [List.length_take]
        omega
      have h3 : t.drop (o.columns - 1) = [] ∨
          0 + (f :: t.take (o.columns - 1)).length = o.columns := by
        by_cases hd : t.drop (o.columns - 1) = []
        · exact Or.inl hd
        · refine Or.inr ?_
          have hlt : o.columns - 1 < t.length := by
            by_contra hcon
            push_neg at hcon
            exact hd (List.drop_eq_nil_of_le hcon)
          simp [List.length_take]
          omega
      have hr := fieldSectionAux_row env fg lb o hcols (f :: t.take (o.columns - 1)) 0 m
        (t.drop (o.columns - 1)) y h1 h2 h3
      rw [Nat.add_zero] at hr
      conv_lhs => rw [hrow]
      rw [hr]
      by_cases hd : t.drop (o.columns - 1) = []
      · rw [hd]
        simp only [fieldSectionAux, chunksOf, hd, List.map_cons, List.map_nil,
          List.sum_cons, List.sum_nil]
        ring
      · have hlen_eq : (f :: t.take (o.columns - 1)).length = o.columns := by
          rcases h3 with h | h
          · exact absurd h hd
          · omega
        have hidx : m * o.columns + (f :: t.take (o.columns - 1)).length =
            (m + 1) * o.columns := by
          rw [hlen_eq]
          ring
        rw [hidx]
        have hle2 : (t.drop (o.columns - 1)).length ≤ n := by
          simp only [List.length_cons] at hle
          simp only [List.length_drop]
          omega
        rw [ih (t.drop (o.columns - 1)) (m + 1) _ hle2]
        simp only [chunksOf, List.map_cons, List.sum_cons]
        ring

/-- A labelled field. -/
def fieldA : PassField := { key := "a", label := some ("A"), value := .str ("x") }

/-- An unlabelled field. -/
def fieldB : PassField := { key := "b", value := .str ("y") }

/-- A one-column section configuration with the default type sizes. -/
def opts1 : SectionOpts := { columns := 1, labelSize := 8, valueSize := 11 }

/-- C4 counterexample: with one column and the two-field section
`[labelled field, unlabelled field]`, the first row advances the cursor by
labelSize + 6 + valueSize + 12 = 37 but the second row by only
valueSize + 12 = 23 — the row advance is **not** uniform across the whole
section, because the gap term is recomputed from each row's last field. -/
theorem row_advance_not_uniform :
    ¬ ((0 : ℚ) -
        (drawFieldSection env0 DEFAULT_FG_COLOR DEFAULT_LABEL_COLOR [fieldA] 0 opts1).2 =
      (drawFieldSection env0 DEFAULT_FG_COLOR DEFAULT_LABEL_COLOR [fieldA] 0 opts1).2 -
        (drawFieldSection env0 DEFAULT_FG_COLOR DEFAULT_LABEL_COLOR [fieldA, fieldB] 0
          opts1).2) := by
  have hA : strTruthy fieldA.label = true := by decide
  have hB : strTruthy fieldB.label = false := by decide
  have h1 : (drawFieldSection env0 DEFAULT_FG_COLOR DEFAULT_LABEL_COLOR [fieldA] 0
      opts1).2 = -37 := by
    simp [drawFieldSection, fieldSectionAux, opts1, fieldGap, hA]
    norm_num
  have h2 : (drawFieldSection env0 DEFAULT_FG_COLOR DEFAULT_LABEL_COLOR [fieldA, fieldB] 0
      opts1).2 = -60 := by
    simp [drawFieldSection, fieldSectionAux, opts1, fieldGap, hA, hB]
    norm_num
  rw [h1, h2]
  norm_num

/-- C4 (amended).  Field `i` of a section is drawn at
x = margin + (i mod columns) · (contentWidth / columns), and the cursor is
advanced only at row completions; but the amount is **per row**: each
completed row advances the cursor by (its last field's label gap) + value
size + fixed padding, so the final cursor is the start cursor minus the sum
of per-row advances (uniform only when all rows end in fields with the same
label presence). -/
theorem field_grid_layout_amended :
    ∀ (env : Env) (fg lb : Color) (o : SectionOpts) (fields : List PassField) (y : ℚ),
      0 < o.columns →
      (∀ j, j < fields.length →
        ((drawFieldSectionDraws env fg lb o fields y).getD j fdDefault).valueOp.xPos =
          MARGIN + ((j % o.columns : ℕ) : ℚ) * (CONTENT_WIDTH / (o.columns : ℚ))) ∧
      (drawFieldSection env fg lb fields y o).2 =
        y - ((chunksOf o.columns fields).map (rowAdvance o)).sum := by
  intro env fg lb o fields y hcols
  constructor
  · intro j hj
    have := fieldSectionAux_value_x env fg lb o fields 0 y j hj
    simpa [drawFieldSectionDraws] using this
  · unfold drawFieldSection
    split
    · next h =>
      subst h
      simp [chunksOf]
    · next h =>
      have := fieldSectionAux_chunks env fg lb o hcols fields.length fields 0 y le_rfl
      simpa using this

/-- Witness for the amended C4: in the concrete two-field one-column
section, field 1 sits at column 1 mod 1 = 0 and the final cursor equals
the start minus the sum of the two different row advances. -/
theorem field_grid_layout_amended_witness :
    ((drawFieldSectionDraws env0 DEFAULT_FG_COLOR DEFAULT_LABEL_COLOR opts1 [fieldA, fieldB]
        0).getD 1 fdDefault).valueOp.xPos =
      MARGIN + ((1 % opts1.columns : ℕ) : ℚ) * (CONTENT_WIDTH / (opts1.columns : ℚ)) ∧
    (drawFieldSection env0 DEFAULT_FG_COLOR DEFAULT_LABEL_COLOR [fieldA, fieldB] 0
        opts1).2 =
      0 - ((chunksOf opts1.columns [fieldA, fieldB]).map (rowAdvance opts1)).sum :=
  ⟨(field_grid_layout_amended env0 DEFAULT_FG_COLOR DEFAULT_LABEL_COLOR opts1
      [fieldA, fieldB] 0 (by decide)).1 1 (by decide),
   (field_grid_layout_amended env0 DEFAULT_FG_COLOR DEFAULT_LABEL_COLOR opts1
      [fieldA, fieldB] 0 (by decide)).2⟩

/-! ## Cursor monotonicity -/

theorem fieldGap_nonneg (o : SectionOpts) (hl : 0 ≤ o.labelSize) (f : PassField) :
    0 ≤ fieldGap o f := by
  unfold fieldGap
  split
  · linarith
  · exact le_refl 0

theorem fieldSectionAux_mono (env : Env) (fg lb : Color) (o : SectionOpts)
    (hl : 0 ≤ o.labelSize) (hv : 0 ≤ o.valueSize) :
    ∀ (fields : List PassField) (i : ℕ) (y : ℚ),
      (fieldSectionAux env fg lb o fields i y).2 ≤ y := by
  intro fields
  induction fields with
  | nil => intro i y; simp [fieldSectionAux]
  | cons f rest ih =>
    intro i y
    simp only [fieldSectionAux]
    refine le_trans (ih (i + 1) _) ?_
    split
    · have hg := fieldGap_nonneg o hl f
      linarith
    · exact le_refl y

theorem drawFieldSection_mono (env : Env) (fg lb : Color) (fields : List PassField)
    (y : ℚ) (o : SectionOpts) (hl : 0 ≤ o.labelSize) (hv : 0 ≤ o.valueSize) :
    (drawFieldSection env fg lb fields y o).2 ≤ y := by
  unfold drawFieldSection
  split
  · exact le_refl y
  · exact fieldSectionAux_mono env fg lb o hl hv fields 0 y

theorem headerStep_mono (env : Env) (fg : Color) (rin : RenderInput) (y : ℚ) :
    (headerStep env fg rin y).2 ≤ y := by
  simp [headerStep]

theorem stripStep_mono (env : Env) (s : Option Payload) (y : ℚ) :
    (stripStep env s y).2 ≤ y := by
  rcases hs : s with _ | pl
  · simp [stripStep]
  · rcases h : env.embedPng pl with _ | info
    · simp [stripStep, h]
    · simp only [stripStep, h]
      have h1 : (0 : ℚ) < info.height * (CONTENT_WIDTH / info.width) := by
        apply mul_pos info.height_pos
        apply div_pos _ info.width_pos
        norm_num [CONTENT_WIDTH, PAGE_WIDTH, MARGIN]
      have h2 : (0 : ℚ) < min (info.height * (CONTENT_WIDTH / info.width)) 120 :=
        lt_min h1 (by norm_num)
      linarith

theorem titleBlock_mono (rin : RenderInput) (fg lb : Color) (y : ℚ) :
    (titleBlock rin fg lb y).2 ≤ y := by
  simp [titleBlock]

theorem primaryStep_mono (env : Env) (fg lb : Color) (rin : RenderInput) (y : ℚ) :
    (primaryStep env fg lb rin y).2 ≤ y := by
  unfold primaryStep
  split
  · have := drawFieldSection_mono env fg lb rin.primaryFields y
      ⟨min rin.primaryFields.length 2, 9, 16⟩ (by norm_num) (by norm_num)
    dsimp only
    linarith
  · exact le_refl y

theorem secondaryStep_mono (env : Env) (fg lb : Color) (rin : RenderInput) (y : ℚ) :
    (secondaryStep env fg lb rin y).2 ≤ y := by
  unfold secondaryStep
  split
  · exact drawFieldSection_mono env fg lb rin.secondaryFields y
      ⟨min rin.secondaryFields.length 3, 8, 11⟩ (by norm_num) (by norm_num)
  · exact le_refl y

theorem auxiliaryStep_mono (env : Env) (fg lb : Color) (rin : RenderInput) (y : ℚ) :
    (auxiliaryStep env fg lb rin y).2 ≤ y := by
  unfold auxiliaryStep
  split
  · have := drawFieldSection_mono env fg lb rin.auxiliaryFields (y - 15)
      ⟨min rin.auxiliaryFields.length 3, 8, 11⟩ (by norm_num) (by norm_num)
    dsimp only
    linarith
  · exact le_refl y

theorem midFieldsStep_mono (env : Env) (fg lb : Color) (rin : RenderInput) (y : ℚ) :
    (midFieldsStep env fg lb rin y).2 ≤ y := by
  unfold midFieldsStep
  dsimp only
  calc (auxiliaryStep env fg lb rin
          (secondaryStep env fg lb rin (primaryStep env fg lb rin y).2).2).2
      ≤ (secondaryStep env fg lb rin (primaryStep env fg lb rin y).2).2 :=
        auxiliaryStep_mono env fg lb rin _
    _ ≤ (primaryStep env fg lb rin y).2 := secondaryStep_mono env fg lb rin _
    _ ≤ y := primaryStep_mono env fg lb rin y

theorem barcodeStep_mono (env : Env) (fg lb : Color) (bc : Option PassBarcode) (y : ℚ) :
    (barcodeStep env fg lb bc y).2 ≤ y := by
  rcases bc with _ | b
  · exact le_refl y
  · simp only [barcodeStep]
    split <;> dsimp only <;> linarith

theorem backLinesLoop_mono (cfg : BackCfg) (hstep : 0 ≤ cfg.lineStep) :
    ∀ (ls : List String) (y : ℚ), (backLinesLoop cfg ls y).2 ≤ y := by
  intro ls
  induction ls with
  | nil => intro y; simp [backLinesLoop]
  | cons line rest ih =>
    intro y
    simp only [backLinesLoop]
    split
    · exact le_refl y
    · dsimp only
      refine le_trans (ih (y - cfg.lineStep)) ?_
      linarith

theorem backFieldsLoop_mono (env : Env) (cfg : BackCfg) (hlab : 0 ≤ cfg.labelStep)
    (hline : 0 ≤ cfg.lineStep) (hpost : 0 ≤ cfg.postStep) :
    ∀ (fields : List PassField) (y : ℚ), (backFieldsLoop env cfg fields y).2 ≤ y := by
  intro fields
  induction fields with
  | nil => intro y; simp [backFieldsLoop]
  | cons f rest ih =>
    intro y
    simp only [backFieldsLoop]
    split
    · exact le_refl y
    · dsimp only
      refine le_trans (ih _) ?_
      refine le_trans (sub_le_self _ hpost) ?_
      refine le_trans (backLinesLoop_mono cfg hline _ _) ?_
      split <;> dsimp only <;> linarith

theorem renderFrontFull_mono (env : Env) (rin : RenderInput) :
    (renderFrontFull env rin).2 ≤ INITIAL_Y := by
  unfold renderFrontFull
  dsimp only
  refine le_trans (barcodeStep_mono _ _ _ _ _) ?_
  refine le_trans (midFieldsStep_mono _ _ _ _ _) ?_
  refine le_trans (titleBlock_mono _ _ _ _) ?_
  refine le_trans (stripStep_mono _ _ _) ?_
  have hh := headerStep_mono env (parseColor rin.foregroundColor DEFAULT_FG_COLOR) rin
    INITIAL_Y
  split
  · exact le_trans (drawFieldSection_mono _ _ _ _ _ _ (by norm_num) (by norm_num)) hh
  · exact hh

/-- C9.  The cursor starts at page height minus margin, and every
section-drawing step of the layout returns a cursor at most the cursor it
received on the page it draws on: the field grid (for non-negative type
sizes), header, strip, title block, the three mid sections, the barcode
block, and both back-field loops; consequently the whole front of the page
ends at or below the start. -/
theorem cursor_monotonicity :
    (INITIAL_Y = PAGE_HEIGHT - MARGIN) ∧
    (∀ (env : Env) (fg lb : Color) (o : SectionOpts) (fields : List PassField) (y : ℚ),
      0 ≤ o.labelSize → 0 ≤ o.valueSize →
      (drawFieldSection env fg lb fields y o).2 ≤ y) ∧
    (∀ (env : Env) (fg : Color) (rin : RenderInput) (y : ℚ),
      (headerStep env fg rin y).2 ≤ y) ∧
    (∀ (env : Env) (s : Option Payload) (y : ℚ), (stripStep env s y).2 ≤ y) ∧
    (∀ (rin : RenderInput) (fg lb : Color) (y : ℚ), (titleBlock rin fg lb y).2 ≤ y) ∧
    (∀ (env : Env) (fg lb : Color) (rin : RenderInput) (y : ℚ),
      (midFieldsStep env fg lb rin y).2 ≤ y) ∧
    (∀ (env : Env) (fg lb : Color) (bc : Option PassBarcode) (y : ℚ),
      (barcodeStep env fg lb bc y).2 ≤ y) ∧
    (∀ (env : Env) (fg lb : Color) (fields : List PassField) (y : ℚ),
      (backFieldsLoop env (inPlaceCfg fg lb) fields y).2 ≤ y) ∧
    (∀ (env : Env) (fg : Color) (fields : List PassField) (y : ℚ),
      (backFieldsLoop env (newPageCfg fg) fields y).2 ≤ y) ∧
    (∀ (env : Env) (rin : RenderInput), (renderFrontFull env rin).2 ≤ INITIAL_Y) := by
  refine ⟨rfl,
    fun env fg lb o fields y hl hv => drawFieldSection_mono env fg lb fields y o hl hv,
    headerStep_mono, stripStep_mono, titleBlock_mono, midFieldsStep_mono,
    barcodeStep_mono, ?_, ?_, renderFrontFull_mono⟩
  · intro env fg lb fields y
    exact backFieldsLoop_mono env (inPlaceCfg fg lb) (by norm_num [inPlaceCfg])
      (by norm_num [inPlaceCfg]) (by norm_num [inPlaceCfg]) fields y
  · intro env fg fields y
    exact backFieldsLoop_mono env (newPageCfg fg) (by norm_num [newPageCfg])
      (by norm_num [newPageCfg]) (by norm_num [newPageCfg]) fields y

/-- Witness for C9: concrete instances of the step monotonicity, with the
field-grid hypotheses discharged at the concrete section configuration. -/
theorem cursor_monotonicity_witness :
    (drawFieldSection env0 DEFAULT_FG_COLOR DEFAULT_LABEL_COLOR [fieldA, fieldB] 0
      opts1).2 ≤ 0 ∧
    (renderFrontFull env0 (toRenderInput pass0)).2 ≤ INITIAL_Y :=
  ⟨cursor_monotonicity.2.1 env0 DEFAULT_FG_COLOR DEFAULT_LABEL_COLOR opts1
      [fieldA, fieldB] 0 (by norm_num [opts1]) (by norm_num [opts1]),
   cursor_monotonicity.2.2.2.2.2.2.2.2.2 env0 (toRenderInput pass0)⟩

/-! ## Back-field pagination and line caps -/

theorem mapWithIndex_congr :
    ∀ (l : List α) (f g : ℕ → α → β), (∀ k a, f k a = g k a) →
      mapWithIndex f l = mapWithIndex g l := by
  intro l
  induction l with
  | nil => intro f g _; rfl
  | cons a t ih =>
    intro f g h
    simp only [mapWithIndex, h 0 a]
    rw [ih _ _ (fun k b => h (k + 1) b)]

/-- Closed form of the back-field line loop when the cursor has room for
every line: one text operation per line, spaced `lineStep` apart, at
`lineSize`, and the cursor drops by `lineStep` per line. -/
theorem backLinesLoop_closed (cfg : BackCfg) (hstep : 0 ≤ cfg.lineStep) :
    ∀ (ls : List String) (y : ℚ), 50 + cfg.lineStep * ls.length ≤ y →
      backLinesLoop cfg ls y =
        (mapWithIndex (fun k line =>
            Op.text line MARGIN (y - cfg.lineStep * k) cfg.lineSize false cfg.lineColor
              none) ls,
         y - cfg.lineStep * ls.length) := by
  intro ls
  induction ls with
  | nil => intro y _; simp [backLinesLoop, mapWithIndex]
  | cons line rest ih =>
    intro y h
    have hlen : (0 : ℚ) ≤ (rest.length : ℚ) + 1 := by positivity
    have hmul : (0 : ℚ) ≤ cfg.lineStep * ((rest.length : ℚ) + 1) := mul_nonneg hstep hlen
    have hy : ¬ y < 50 := by
      simp only [List.length_cons] at h
      push_cast at h
      linarith
    have hrec := ih (y - cfg.lineStep) (by
      simp only [List.length_cons] at h
      push_cast at h ⊢
      linarith)
    simp only [backLinesLoop, if_neg hy, hrec]
    simp only [mapWithIndex, Prod.mk.injEq, List.cons.injEq, List.length_cons]
    refine ⟨⟨?_, ?_⟩, ?_⟩
    · simp
    · refine mapWithIndex_congr rest _ _ ?_
      intro k a
      simp only [Op.text.injEq, eq_self_iff_true, true_and, and_true]
      push_cast
      ring
    · push_cast
      ring

/-- A back field reached with the cursor below the bottom threshold draws
nothing; the loop stops and all remaining fields are omitted. -/
theorem backFieldsLoop_stop (env : Env) (cfg : BackCfg) (fields : List PassField)
    (y : ℚ) (h : y < 50) : backFieldsLoop env cfg fields y = ([], y) := by
  cases fields <;> simp [backFieldsLoop, h]

theorem backLinesLoop_stop (cfg : BackCfg) (ls : List String) (y : ℚ) (h : y < 50) :
    backLinesLoop cfg ls y = ([], y) := by
  cases ls <;> simp [backLinesLoop, h]

/-- In-place rendering of one unlabelled back field with ample room: the
drawn value lines are exactly the first 3 wrapped lines (wrap at size 9),
drawn at size 9 and stepped 12 apart; excess lines are dropped unchanged. -/
theorem backFieldInPlace_ops (env : Env) (fg lb : Color) (f : PassField) (y : ℚ)
    (hlab : strTruthy f.label = false) (hy : 86 ≤ y) :
    backFieldsLoop env (inPlaceCfg fg lb) [f] y =
      (mapWithIndex (fun k line => Op.text line MARGIN (y - 12 * k) 9 false fg none)
        ((wrapText env (formatFieldValue env f) 9 CONTENT_WIDTH).take 3),
       y - 12 * (((wrapText env (formatFieldValue env f) 9 CONTENT_WIDTH).take 3).length
           : ℚ) - 8) := by
  have hy50 : ¬ y < 50 := by linarith
  have hroom : 50 + (inPlaceCfg fg lb).lineStep *
      ((wrapText env (formatFieldValue env f) 9 CONTENT_WIDTH).take 3).length ≤ y := by
    have hle3 : ((wrapText env (formatFieldValue env f) 9 CONTENT_WIDTH).take 3).length
        ≤ 3 := by
      simp [List.length_take]
    have hle3' : (((wrapText env (formatFieldValue env f) 9
        CONTENT_WIDTH).take 3).length : ℚ) ≤ 3 := by exact_mod_cast hle3
    simp only [inPlaceCfg]
    linarith
  have hclosed := backLinesLoop_closed (inPlaceCfg fg lb) (by norm_num [inPlaceCfg])
    ((wrapText env (formatFieldValue env f) 9 CONTENT_WIDTH).take 3) y hroom
  simp only [backFieldsLoop, if_neg hy50, hlab, Bool.false_eq_true, if_false,
    inPlaceCfg] at hclosed ⊢
  rw [hclosed]
  simp [backFieldsLoop]

/-- New-page rendering of one unlabelled back field with ample room: every
wrapped line is drawn (wrap at size 10, no cap), at size 10 and stepped 14
apart. -/
theorem backFieldNewPage_ops (env : Env) (fg : Color) (f : PassField) (y : ℚ)
    (hlab : strTruthy f.label = false)
    (hy : 50 + 14 * ((wrapText env (formatFieldValue env f) 10 CONTENT_WIDTH).length : ℚ)
      ≤ y) :
    backFieldsLoop env (newPageCfg fg) [f] y =
      (mapWithIndex (fun k line => Op.text line MARGIN (y - 14 * k) 10 false fg none)
        (wrapText env (formatFieldValue env f) 10 CONTENT_WIDTH),
       y - 14 * ((wrapText env (formatFieldValue env f) 10 CONTENT_WIDTH).length : ℚ)
         - 10) := by
  have hlen : (0 : ℚ) ≤ ((wrapText env (formatFieldValue env f) 10
      CONTENT_WIDTH).length : ℚ) := by positivity
  have hy50 : ¬ y < 50 := by linarith
  have hclosed := backLinesLoop_closed (newPageCfg fg) (by norm_num [newPageCfg])
    (wrapText env (formatFieldValue env f) 10 CONTENT_WIDTH) y
    (by simp only [newPageCfg]; linarith)
  simp only [backFieldsLoop, if_neg hy50, hlab, Bool.false_eq_true, if_false,
    newPageCfg] at hclosed ⊢
  rw [hclosed]
  simp [backFieldsLoop]

/-- A document never has more than two pages: only one extra page can ever
be created. -/
theorem generatePdf_length_le_two (p : ParsedPass) (env : Env) :
    (generatePdf p env).length ≤ 2 := by
  simp only [generatePdf, generatePdfCore, List.length_cons]
  rcases ho : (backStep env (parseColor (toRenderInput p).backgroundColor DEFAULT_BG_COLOR)
      (parseColor (toRenderInput p).foregroundColor DEFAULT_FG_COLOR)
      (parseColor (toRenderInput p).labelColor DEFAULT_LABEL_COLOR)
      (toRenderInput p).backFields
      (renderFrontFull env (toRenderInput p)).2).2.1 with _ | pg <;>
    simp [ho]

/-- For a pass with back fields, the document has a second page exactly
when the cursor at the page-break decision has fallen below 150. -/
theorem generatePdf_two_pages_iff (p : ParsedPass) (env : Env)
    (hbf : p.backFields ≠ []) :
    ((generatePdf p env).length = 2 ↔ frontY p env < 150) := by
  have hrinbf : (toRenderInput p).backFields = p.backFields := rfl
  simp only [generatePdf, generatePdfCore, List.length_cons, backStep, hrinbf,
    if_neg hbf]
  by_cases hy : (renderFrontFull env (toRenderInput p)).2 < 150
  · rw [if_pos hy]
    simp [frontY, frontYCore, hy]
  · rw [if_neg hy]
    simp [frontY, frontYCore, hy]

/-- C3.  The document never exceeds two pages; with non-empty back fields a
second page is started exactly when the cursor has fallen below 150; a back
field (or line) reached with the cursor below 50 draws nothing and the
remaining fields are silently omitted; in place, an unlabelled back field
draws exactly the first 3 wrapped lines at the smaller size 9, stepped 12;
on the new page it draws every wrapped line at the larger size 10, stepped
14, with no cap. -/
theorem back_fields_pagination :
    (∀ (p : ParsedPass) (env : Env), (generatePdf p env).length ≤ 2) ∧
    (∀ (p : ParsedPass) (env : Env), p.backFields ≠ [] →
      ((generatePdf p env).length = 2 ↔ frontY p env < 150)) ∧
    (∀ (env : Env) (cfg : BackCfg) (fields : List PassField) (y : ℚ), y < 50 →
      backFieldsLoop env cfg fields y = ([], y)) ∧
    (∀ (cfg : BackCfg) (ls : List String) (y : ℚ), y < 50 →
      backLinesLoop cfg ls y = ([], y)) ∧
    (∀ (env : Env) (fg lb : Color) (f : PassField) (y : ℚ),
      strTruthy f.label = false → 86 ≤ y →
      backFieldsLoop env (inPlaceCfg fg lb) [f] y =
        (mapWithIndex (fun k line => Op.text line MARGIN (y - 12 * k) 9 false fg none)
          ((wrapText env (formatFieldValue env f) 9 CONTENT_WIDTH).take 3),
         y - 12 * (((wrapText env (formatFieldValue env f) 9
             CONTENT_WIDTH).take 3).length : ℚ) - 8)) ∧
    (∀ (env : Env) (fg : Color) (f : PassField) (y : ℚ),
      strTruthy f.label = false →
      50 + 14 * ((wrapText env (formatFieldValue env f) 10 CONTENT_WIDTH).length : ℚ)
        ≤ y →
      backFieldsLoop env (newPageCfg fg) [f] y =
        (mapWithIndex (fun k line => Op.text line MARGIN (y - 14 * k) 10 false fg none)
          (wrapText env (formatFieldValue env f) 10 CONTENT_WIDTH),
         y - 14 * ((wrapText env (formatFieldValue env f) 10 CONTENT_WIDTH).length : ℚ)
           - 10)) :=
  ⟨generatePdf_length_le_two, generatePdf_two_pages_iff, backFieldsLoop_stop,
   backLinesLoop_stop, backFieldInPlace_ops, backFieldNewPage_ops⟩

/-- A concrete pass with one back field. -/
def pass3 : ParsedPass := { pass0 with backFields := [fieldB] }

/-- Witness for C3: the page-count equivalence at a concrete pass with one
back field; the below-threshold stop at cursor 0; and the in-place closed
form for the unlabelled field at cursor 600. -/
theorem back_fields_pagination_witness :
    ((generatePdf pass3 env0).length = 2 ↔ frontY pass3 env0 < 150) ∧
    backFieldsLoop env0 (inPlaceCfg DEFAULT_FG_COLOR DEFAULT_LABEL_COLOR) [fieldA] 0 =
      ([], 0) ∧
    backFieldsLoop env0 (inPlaceCfg DEFAULT_FG_COLOR DEFAULT_LABEL_COLOR) [fieldB] 600 =
      (mapWithIndex (fun k line =>
          Op.text line MARGIN (600 - 12 * k) 9 false DEFAULT_FG_COLOR none)
        ((wrapText env0 (formatFieldValue env0 fieldB) 9 CONTENT_WIDTH).take 3),
       600 - 12 * (((wrapText env0 (formatFieldValue env0 fieldB) 9
           CONTENT_WIDTH).take 3).length : ℚ) - 8) :=
  ⟨back_fields_pagination.2.1 pass3 env0 (by decide),
   back_fields_pagination.2.2.1 env0 _ [fieldA] 0 (by decide),
   back_fields_pagination.2.2.2.2.1 env0 DEFAULT_FG_COLOR DEFAULT_LABEL_COLOR fieldB 600
     (by decide) (by decide)⟩
